import Mathlib

/-! # A verified model of the FERC Form 1 FoxPro extraction module

Shallow embedding of `pudl/extract/ferc1.py`: the printable-string scanner
(`get_strings`), the catalog reconstruction (`get_dbc_map`), the malformed
numeric-field coercion (`FERC1FieldParser.parseN`), the schema synthesis
(`add_sqlite_table` / `define_sqlite_db`), the multi-year loader
(`get_raw_df` and the per-table load step of `dbf2sqlite`), and the
filtered extraction queries (`extract`, `fuel`, and the other per-table
readers).

Byte/character strings are modelled as `List Char`; the file and database
I/O boundaries are modelled as explicit parameters (decoded file contents,
per-year row batches, the reflected store).  Python exceptions are
modelled with `Except`. -/

/-- The six ASCII characters stripped by Python `bytes.strip()` / `str.strip()`
with no argument: space, tab, newline, carriage return, vertical tab and
form feed. -/
def pyIsSpace (c : Char) : Bool :=
  c = ' ' || c = '\t' || c = '\n' || c = '\r' || c = '\x0b' || c = '\x0c'

/-- Membership in Python's `string.printable`: digits, letters and
punctuation (the visible range `0x20`–`0x7e`) together with the whitespace
characters. -/
def pyPrintable (c : Char) : Bool :=
  (0x20 ≤ c.toNat && c.toNat ≤ 0x7e) || pyIsSpace c

/-- Python `s.strip(chars)`: remove leading and trailing characters drawn
from the character class `p`. -/
def pyStripP (p : Char → Bool) (s : List Char) : List Char :=
  ((s.dropWhile p).reverse.dropWhile p).reverse

/-- Python `s.strip()` with no argument: strip surrounding whitespace. -/
def pyStrip (s : List Char) : List Char :=
  pyStripP pyIsSpace s

/-! ## The byte-run scanner `get_strings` -/

/-- The loop of `get_strings`: `result` accumulates the current printable
run; a non-printable character flushes the run when it has at least
`minLength` characters, and the run in progress at end of file is flushed
as well. -/
def get_strings_go (minLength : Nat) (result : List Char) :
    List Char → List (List Char)
  | [] => if minLength ≤ result.length then [result] else []
  | c :: cs =>
    if pyPrintable c then get_strings_go minLength (result ++ [c]) cs
    else if minLength ≤ result.length then
      result :: get_strings_go minLength [] cs
    else get_strings_go minLength [] cs

/-- `get_strings(filename, min_length)`, parameterised by the decoded file
contents (the `open(..., errors="ignore")` boundary: undecodable bytes have
already been dropped from `contents`). -/
def get_strings (contents : List Char) (minLength : Nat) : List (List Char) :=
  get_strings_go minLength [] contents

/-- Specification-side description of the scanner's output: the maximal
runs of characters satisfying `p`, in scan order — the nonempty segments
obtained by cutting the list at every character that fails `p`. -/
def maximalRuns (p : Char → Bool) (s : List Char) : List (List Char) :=
  (s.splitOnP (fun c => !p c)).filter (fun r => !r.isEmpty)

/-! ## The numeric coercion adapter `FERC1FieldParser.parseN` -/

/-- The character class stripped by `data.strip(b'*\x00')`. -/
def isStarOrNul (c : Char) : Bool :=
  c = '*' || c = '\x00'

/-- The data-repair stage of `FERC1FieldParser.parseN`: strip surrounding
whitespace, then leading/trailing `*` and NUL characters, then
leading/trailing `0` characters, and replace a bare `.` by `0`. -/
def ferc1_parseN_data (data : List Char) : List Char :=
  let d := pyStripP (fun c => c = '0') (pyStripP isStarOrNul (pyStrip data))
  if d = ['.'] then ['0'] else d

/-- Numeric value of a list of decimal digits. -/
def digitsVal (ds : List Char) : Nat :=
  ds.foldl (fun a c => 10 * a + (c.toNat - 48)) 0

/-- Model of Python `int()` on a byte string: optional surrounding
whitespace, an optional sign, then one or more decimal digits; `none` when
the text is not a valid integer literal. -/
def pyInt? (s : List Char) : Option Int :=
  match pyStrip s with
  | [] => none
  | c :: rest =>
    match
      (if c = '-' then (true, rest)
       else if c = '+' then (false, rest)
       else (false, c :: rest) : Bool × List Char) with
    | (neg, ds) =>
      if ds.isEmpty then none
      else if ds.all Char.isDigit then
        some (if neg then -(digitsVal ds : Int) else (digitsVal ds : Int))
      else none

/-- Model of Python `float()` restricted to plain decimal literals
(optional sign, digits with at most one decimal point, at least one digit
overall); the scientific and `inf`/`nan` spellings cannot arise from the
repaired FERC numeric fields. -/
def pyFloat? (s : List Char) : Option ℚ :=
  match pyStrip s with
  | [] => none
  | c :: rest =>
    match
      (if c = '-' then (true, rest)
       else if c = '+' then (false, rest)
       else (false, c :: rest) : Bool × List Char) with
    | (neg, ds) =>
      let ip := ds.takeWhile (fun c => c ≠ '.')
      match ds.dropWhile (fun c => c ≠ '.') with
      | [] =>
        if !ds.isEmpty && ds.all Char.isDigit then
          some (if neg then -(digitsVal ds : ℚ) else (digitsVal ds : ℚ))
        else none
      | _ :: fp =>
        if ip.all Char.isDigit && fp.all Char.isDigit &&
            !(ip.isEmpty && fp.isEmpty) then
          let q : ℚ := (digitsVal ip : ℚ) + (digitsVal fp : ℚ) / (10 ^ fp.length : ℚ)
          some (if neg then -q else q)
        else none

/-- Model of the generic numeric decoder `dbfread.FieldParser.parseN` that
`FERC1FieldParser.parseN` delegates to: strip whitespace and `*` padding,
try the integer parse; on failure return the null value (`none`) for blank
data, and otherwise parse as a float with `,` read as the decimal point.
An unparseable residual raises (`ValueError`), modelled as `.error`. -/
def genericParseN (data : List Char) : Except Unit (Option ℚ) :=
  let d := pyStripP (fun c => c = '*') (pyStrip data)
  match pyInt? d with
  | some n => .ok (some (n : ℚ))
  | none =>
    if (pyStrip d).isEmpty then .ok none
    else
      match pyFloat? (d.map (fun c => if c = ',' then '.' else c)) with
      | some q => .ok (some q)
      | none => .error ()

/-- `FERC1FieldParser.parseN`: repair the field bytes, then delegate to the
generic numeric decoder. -/
def ferc1_parseN (data : List Char) : Except Unit (Option ℚ) :=
  genericParseN (ferc1_parseN_data data)

instance {ε α : Type} [DecidableEq ε] [DecidableEq α] : DecidableEq (Except ε α) :=
  fun a b =>
  match a, b with
  | .ok x, .ok y =>
    if h : x = y then .isTrue (congrArg Except.ok h)
    else .isFalse (fun hh => h (Except.ok.inj hh))
  | .error x, .error y =>
    if h : x = y then .isTrue (congrArg Except.error h)
    else .isFalse (fun hh => h (Except.error.inj hh))
  | .ok _, .error _ => .isFalse (fun hh => Except.noConfusion hh)
  | .error _, .ok _ => .isFalse (fun hh => Except.noConfusion hh)

/-! ## The catalog reconstructor `get_dbc_map` -/

/-- Python `s.split()` with no argument: the maximal whitespace-free runs. -/
def pySplitWs (s : List Char) : List (List Char) :=
  maximalRuns (fun c => !pyIsSpace c) s

/-- Loop of `collapseWs`; `afterWs` records whether the previous character
belonged to a whitespace run already emitted as a single `' '`. -/
def collapseWsGo (afterWs : Bool) : List Char → List Char
  | [] => []
  | c :: cs =>
    if pyIsSpace c then
      if afterWs then collapseWsGo true cs else ' ' :: collapseWsGo true cs
    else c :: collapseWsGo false cs

/-- Python `' '.join(ss)`. -/
def joinSpace (ss : List (List Char)) : List Char :=
  List.intercalate [' '] ss

/-- Python `re.sub(r'\s+', ' ', s)`: collapse every whitespace run to a
single space. -/
def collapseWs (s : List Char) : List Char :=
  collapseWsGo false s

/-- Fuel-driven loop of `pyReplace`; on a pattern match at least one
character is consumed, so `fuel = s.length` always suffices and the
out-of-fuel branch is unreachable. -/
def pyReplaceGo (pat repl : List Char) : Nat → List Char → List Char
  | 0, s => s
  | _ + 1, [] => []
  | fuel + 1, c :: cs =>
    if !pat.isEmpty && pat.isPrefixOf (c :: cs) then
      repl ++ pyReplaceGo pat repl fuel ((c :: cs).drop pat.length)
    else c :: pyReplaceGo pat repl fuel cs

/-- Python `s.replace(pat, repl)` (leftmost, non-overlapping occurrences)
for a non-empty pattern; an empty pattern leaves the text unchanged. -/
def pyReplace (pat repl s : List Char) : List Char :=
  pyReplaceGo pat repl s.length s

/-- Fuel-driven loop of `pySplitOn`, with the same fuel discipline as
`pyReplaceGo`. -/
def pySplitOnGo (sep : List Char) : Nat → List Char → List (List Char)
  | 0, s => [s]
  | _ + 1, [] => [[]]
  | fuel + 1, c :: cs =>
    if !sep.isEmpty && sep.isPrefixOf (c :: cs) then
      [] :: pySplitOnGo sep fuel ((c :: cs).drop sep.length)
    else
      match pySplitOnGo sep fuel cs with
      | [] => [[c]]
      | r :: rs => (c :: r) :: rs

/-- Python `s.split(sep)` for a non-empty separator. -/
def pySplitOn (sep s : List Char) : List (List Char) :=
  pySplitOnGo sep s.length s

/-- Assignment `d[k] = v` on an association-list model of a Python dict: an
existing key keeps its position and receives the new value, a new key is
appended at the end. -/
def pyDictSet {α β : Type} [DecidableEq α] (k : α) (v : β) :
    List (α × β) → List (α × β)
  | [] => [(k, v)]
  | (k0, v0) :: rest =>
    if k0 = k then (k, v) :: rest else (k0, v0) :: pyDictSet k v rest

/-- Key lookup in the association-list dict model. -/
def lookupA {α β : Type} [DecidableEq α] (k : α) : List (α × β) → Option β
  | [] => none
  | (k0, v0) :: rest => if k0 = k then some v0 else lookupA k rest

/-- The ways `get_dbc_map` can abort. -/
inductive DbcMapError where
  /-- `table_and_fields[0]` on an empty word list (`IndexError`). -/
  | emptyChunk : DbcMapError
  /-- `tf_dict[table]` for a table absent from the catalog (`KeyError`). -/
  | missingTable (table : List Char) : DbcMapError
  /-- `assert len(tf_dict[table]) == len(dbf_fields)` failed. -/
  | fieldCountMismatch (table : List Char) : DbcMapError
  /-- `assert ln[:8] == sn.lower()[:8]` failed for the pair `(sn, ln)`. -/
  | fieldNameMismatch (sn ln : List Char) : DbcMapError
deriving DecidableEq

/-- The string-normalisation half of `get_dbc_map`: scan the catalog file,
trim and drop empty strings, collapse whitespace, keep the strings starting
with `Table` or `Field`, keep the first two words of each, erase the
`Field ` keyword, then join everything and re-split on `Table ` into one
chunk per table (dropping empty chunks before the final trim). -/
def dbcTableStrings (dbcContents : List Char) (minLength : Nat) :
    List (List Char) :=
  let dbc_strings := get_strings dbcContents minLength
  let dbc_strings := dbc_strings.map pyStrip
  let dbc_strings := dbc_strings.filter (fun s => s ≠ [])
  let dbc_strings := dbc_strings.map collapseWs
  let dbc_strings := dbc_strings.filter
    (fun s => "Table".toList.isPrefixOf s || "Field".toList.isPrefixOf s)
  let dbc_strings := dbc_strings.map (fun s => joinSpace ((pySplitWs s).take 2))
  let dbc_strings := dbc_strings.map (pyReplace "Field ".toList [])
  let dbc_table_strings := pySplitOn "Table ".toList (joinSpace dbc_strings)
  (dbc_table_strings.filter (fun s => s ≠ [])).map pyStrip

/-- Build `tf_dict`: each chunk's first word is the table name, the rest
are its catalog field names. -/
def buildTfDict (chunks : List (List Char)) :
    Except DbcMapError (List (List Char × List (List Char))) :=
  chunks.foldlM
    (fun d chunk =>
      match pySplitWs chunk with
      | [] => .error .emptyChunk
      | t :: fs => .ok (pyDictSet t fs d))
    []

/-- For each known table whose reference-year data file is present, zip the
physical field names (with the `_NullFlags` pseudo-field removed) against
the catalog names, and check that the field counts agree.  (The source
performs the `assert` just after storing the zipped entry; on failure the
partially built dict is discarded with the exception, so the two effects
commute.) -/
def buildDbcMap (tfDict : List (List Char × List (List Char)))
    (dbfFields : List Char → Option (List (List Char))) :
    List (List Char) →
      Except DbcMapError (List (List Char × List (List Char × List Char)))
  | [] => .ok []
  | table :: rest =>
    match dbfFields table with
    | none => buildDbcMap tfDict dbfFields rest
    | some fields =>
      let dbf_fields := fields.filter (fun f => f ≠ "_NullFlags".toList)
      match lookupA table tfDict with
      | none => .error (.missingTable table)
      | some tfs =>
        let entry := (dbf_fields.zip tfs).foldl
          (fun d kv => pyDictSet kv.1 kv.2 d) []
        if tfs.length = dbf_fields.length then
          (buildDbcMap tfDict dbfFields rest).map (fun m => (table, entry) :: m)
        else .error (.fieldCountMismatch table)

/-- The integrity loop `assert ln[:8] == sn.lower()[:8]` over one table's
reconstructed `(short name, long name)` pairs. -/
def checkEntry : List (List Char × List Char) → Except DbcMapError Unit
  | [] => .ok ()
  | (sn, ln) :: rest =>
    if ln.take 8 = (sn.map Char.toLower).take 8 then checkEntry rest
    else .error (.fieldNameMismatch sn ln)

/-- The integrity loop over the whole reconstructed map. -/
def checkDbcMap :
    List (List Char × List (List Char × List Char)) → Except DbcMapError Unit
  | [] => .ok ()
  | (_, entry) :: rest => do
    checkEntry entry
    checkDbcMap rest

/-- `get_dbc_map(year, data_dir, min_length)`, parameterised by the raw
catalog file contents, the known-table list (the keys of
`pc.ferc1_tbl2dbf`) and the physical field names of each table's
reference-year data file (`none` when that file is missing). -/
def get_dbc_map (dbcContents : List Char) (minLength : Nat)
    (tables : List (List Char))
    (dbfFields : List Char → Option (List (List Char))) :
    Except DbcMapError (List (List Char × List (List Char × List Char))) := do
  let tfDict ← buildTfDict (dbcTableStrings dbcContents minLength)
  let dbcMap ← buildDbcMap tfDict dbfFields tables
  checkDbcMap dbcMap
  return dbcMap


/-! ## The multi-year loader: `get_raw_df` and the load loop of `dbf2sqlite` -/

/-- A decoded DBF record in the loader model: the respondent identifier —
the key the registry deduplication uses — is explicit, the remaining
columns are an uninterpreted association list. -/
structure RawRow where
  respondent_id : Int
  fields : List (String × String)
deriving DecidableEq, Repr

/-- `DataFrame.rename(m, axis=1)` on one row: columns absent from the map
keep their names. -/
def renameRow (m : List (String × String)) (r : RawRow) : RawRow :=
  ⟨r.respondent_id,
   r.fields.map (fun kv =>
     match lookupA kv.1 m with
     | some v => (v, kv.2)
     | none => kv)⟩

/-- `get_raw_df(table, dbc_map, data_dir, years)`: concatenate the decoded
records of every requested year whose DBF file exists, drop the
`_NullFlags` column and rename the remaining columns through the catalog
map.  When no requested year has a data file the Python function falls off
the end and returns `None` (modelled as `none`), despite its docstring
promising a DataFrame. -/
def get_raw_df (dbcEntry : List (String × String)) (years : List Int)
    (files : Int → Option (List RawRow)) : Option (List RawRow) :=
  let raw_dfs := years.filterMap files
  if raw_dfs.isEmpty then none
  else
    some (raw_dfs.flatten.map (fun r =>
      renameRow dbcEntry
        ⟨r.respondent_id, r.fields.filter (fun kv => kv.1 ≠ "_NullFlags")⟩))

/-- `DataFrame.drop_duplicates(subset='respondent_id', keep='last')`: keep
each identifier's last occurrence, in its original position. -/
def dropDupKeepLast : List RawRow → List RawRow
  | [] => []
  | r :: rs =>
    if rs.any (fun r2 => r2.respondent_id == r.respondent_id) then
      dropDupKeepLast rs
    else r :: dropDupKeepLast rs

/-- The fate of one table in the load loop of `dbf2sqlite`. -/
inductive LoadOutcome where
  /-- An uncaught Python exception: when `new_df` is `None`,
  `len(new_df)` raises `TypeError` (and for the registry table
  `None.drop_duplicates` raises `AttributeError` first). -/
  | crashed : LoadOutcome
  /-- `n_recs <= 0`: the table is skipped and nothing is written. -/
  | skipped : LoadOutcome
  /-- `new_df.to_sql(...)`: these rows are written to the SQLite store. -/
  | written (rows : List RawRow) : LoadOutcome
deriving DecidableEq, Repr

/-- One iteration of the load loop of `dbf2sqlite` (lines 426–450): read
the multi-year DataFrame, deduplicate the registry table
`f1_respondent_id` by identifier keeping the last occurrence, skip an
empty batch without writing, and write anything else. -/
def dbf2sqlite_load_step (table : String) (df : Option (List RawRow)) :
    LoadOutcome :=
  match df with
  | none => .crashed
  | some rows =>
    let rows := if table = "f1_respondent_id" then dropDupKeepLast rows else rows
    if rows.length ≤ 0 then .skipped
    else .written rows

/-! ## The schema synthesizer `add_sqlite_table` / `define_sqlite_db` -/

/-- A DBF field descriptor as read from a data file's own header. -/
structure DbfFieldDescr where
  name : List Char
  ftype : Char
  flen : Nat
deriving DecidableEq, Repr

/-- An SQLAlchemy column type in the synthesized schema: `sa.String` (the
bare class, or specialised with a length) or any other type produced by the
`pc.dbf_typemap` lookup, tagged by its DBF type code. -/
inductive ColType where
  | sqlString (length : Option Nat) : ColType
  | mapped (code : Char) : ColType
deriving DecidableEq, Repr

/-- `sa.PrimaryKeyConstraint(..., sqlite_on_conflict='REPLACE')`. -/
structure PKConstraint where
  cols : List (List Char)
  onConflictReplace : Bool
deriving DecidableEq, Repr

/-- `sa.ForeignKeyConstraint(columns=..., refcolumns=...)`. -/
structure FKConstraint where
  cols : List (List Char)
  refcols : List (List Char)
deriving DecidableEq, Repr

/-- A synthesized table: name, ordered columns and constraints. -/
structure SqliteTable where
  name : List Char
  cols : List (List Char × ColType)
  pk : Option PKConstraint
  fks : List FKConstraint
deriving DecidableEq, Repr

/-- Schema synthesis aborts (`KeyError`) when the catalog map lacks the
table or one of its field names. -/
inductive SchemaError where
  | tableKeyError (table : List Char) : SchemaError
  | colKeyError (table fieldName : List Char) : SchemaError
deriving DecidableEq, Repr

/-- The column loop of `add_sqlite_table`: walk the reference-year DBF
field descriptors, skipping `_NullFlags` and denylisted columns, renaming
each through the table's catalog entry and specialising `sa.String` with
the field length (the `pc.dbf_typemap` lookup is the `typemap`
parameter). -/
def add_sqlite_table_cols (table_name : List Char)
    (entry : List (List Char × List Char))
    (refFields : List DbfFieldDescr)
    (bad_cols : List (List Char × List Char))
    (typemap : Char → ColType) :
    Except SchemaError (List (List Char × ColType)) :=
  refFields.foldlM (fun acc f => do
      if f.name = "_NullFlags".toList then pure acc
      else
        match lookupA f.name entry with
        | none => Except.error (.colKeyError table_name f.name)
        | some col_name =>
          if (table_name, col_name) ∈ bad_cols then pure acc
          else
            let col_type := match typemap f.ftype with
              | .sqlString none => ColType.sqlString (some f.flen)
              | t => t
            pure (acc ++ [(col_name, col_type)]))
    []

/-- `add_sqlite_table(table_name, sqlite_meta, dbc_map, data_dir, refyear,
bad_cols)`: build the table's columns from the reference-year DBF field
descriptors, then attach the replace-on-conflict primary key to
`f1_respondent_id` only, and a foreign key to every other table that
carries a `respondent_id` column. -/
def add_sqlite_table (table_name : List Char)
    (dbc_map : List (List Char × List (List Char × List Char)))
    (refFields : List DbfFieldDescr)
    (bad_cols : List (List Char × List Char))
    (typemap : Char → ColType) :
    Except SchemaError SqliteTable := do
  let entry ← match lookupA table_name dbc_map with
    | none => Except.error (.tableKeyError table_name)
    | some e => Except.ok e
  let cols ← add_sqlite_table_cols table_name entry refFields bad_cols typemap
  let col_names := cols.map (fun c => c.1)
  let pk : Option PKConstraint :=
    if table_name = "f1_respondent_id".toList then
      some ⟨["respondent_id".toList], true⟩
    else none
  let fks : List FKConstraint :=
    if "respondent_id".toList ∈ col_names ∧
        table_name ≠ "f1_respondent_id".toList then
      [⟨["respondent_id".toList], ["f1_respondent_id.respondent_id".toList]⟩]
    else []
  return ⟨table_name, cols, pk, fks⟩

/-- `define_sqlite_db(sqlite_meta, dbc_map, data_dir, tables, refyear,
bad_cols)`: synthesize every target table.  The reference-year field
descriptors of each table's DBF file are the `refFieldsOf` parameter. -/
def define_sqlite_db (dbc_map : List (List Char × List (List Char × List Char)))
    (tables : List (List Char))
    (refFieldsOf : List Char → List DbfFieldDescr)
    (bad_cols : List (List Char × List Char))
    (typemap : Char → ColType) :
    Except SchemaError (List SqliteTable) :=
  tables.mapM (fun t => add_sqlite_table t dbc_map (refFieldsOf t) bad_cols typemap)

/-! ## The extractor: `extract` and the per-table query functions -/

/-- A row of the FERC Form 1 SQLite store, with the columns consulted by
the per-table quality predicates explicit and the remaining columns
uninterpreted. -/
structure F1Row where
  respondent_id : Int
  report_year : Int
  fuel : String
  fuel_quantity : ℚ
  plant_name : String
  tot_capacity : ℚ
  capacity_rating : ℚ
  net_demand : ℚ
  net_generation : ℚ
  plant_cost : ℚ
  plant_cost_mw : ℚ
  operation : ℚ
  expns_fuel : ℚ
  expns_maint : ℚ
  fuel_cost : ℚ
  other : List (String × String)
deriving DecidableEq, Repr

/-- The reflected metadata of the FERC Form 1 SQLite store:
`ferc1_meta.tables`, an insertion-ordered map of table name to rows. -/
abbrev Ferc1Meta := List (String × List F1Row)

/-- The failure modes of `extract` and of the per-table readers. -/
inductive ExtractError where
  /-- `ValueError`: a year outside `pc.data_years['ferc1']`, reported with
  the available years. -/
  | yearNotAvailable (year : Int) (data_years : List Int) : ExtractError
  /-- `ValueError`: a year outside `pc.working_years['ferc1']`, reported
  with the integrated years. -/
  | yearNotIntegrated (year : Int) (working_years : List Int) : ExtractError
  /-- `ValueError`: a table outside `pc.ferc1_pudl_tables`, reported with
  the integrated tables. -/
  | tableNotIntegrated (table : String) (pudl_tables : List String) : ExtractError
  /-- `AssertionError`: the reflected store holds no tables. -/
  | noTablesFound : ExtractError
  /-- `ValueError`: no extract function registered for the table. -/
  | noExtractFunction (table : String) : ExtractError
  /-- `KeyError` from `ferc1_meta.tables[ferc1_table]`. -/
  | tableKeyError (table : String) : ExtractError
deriving DecidableEq, Repr

/-- `sa.sql.select([t]).where(p1)....where(pn)`: each `.where(...)` call
appends one conjunct, and running the select keeps the rows passing every
predicate. -/
def runSelect (rows : List F1Row) (preds : List (F1Row → Bool)) : List F1Row :=
  preds.foldl (fun acc p => acc.filter p) rows

/-- `fuel(ferc1_meta, ferc1_table, ferc1_years)`: f1_fuel records with a
fuel type, positive fuel quantity, a plant name, a requested report year
and a respondent not in `pc.missing_respondents_ferc1` (the `missing`
parameter). -/
def fuel (ferc1_meta : Ferc1Meta) (ferc1_table : String)
    (ferc1_years : List Int) (missing : List Int) :
    Except ExtractError (List F1Row) :=
  match lookupA ferc1_table ferc1_meta with
  | none => .error (.tableKeyError ferc1_table)
  | some rows => .ok (runSelect rows
      [fun r => r.fuel != "",
       fun r => decide (r.fuel_quantity > 0),
       fun r => r.plant_name != "",
       fun r => decide (r.report_year ∈ ferc1_years),
       fun r => decide (r.respondent_id ∉ missing)])

/-- `plants_steam(ferc1_meta, ferc1_table, ferc1_years)`. -/
def plants_steam (ferc1_meta : Ferc1Meta) (ferc1_table : String)
    (ferc1_years : List Int) (missing : List Int) :
    Except ExtractError (List F1Row) :=
  match lookupA ferc1_table ferc1_meta with
  | none => .error (.tableKeyError ferc1_table)
  | some rows => .ok (runSelect rows
      [fun r => decide (r.tot_capacity > 0),
       fun r => r.plant_name != "",
       fun r => decide (r.report_year ∈ ferc1_years),
       fun r => decide (r.respondent_id ∉ missing)])

/-- `plants_small(ferc1_meta, ferc1_table, ferc1_years)`. -/
def plants_small (ferc1_meta : Ferc1Meta) (ferc1_table : String)
    (ferc1_years : List Int) (missing : List Int) :
    Except ExtractError (List F1Row) :=
  match lookupA ferc1_table ferc1_meta with
  | none => .error (.tableKeyError ferc1_table)
  | some rows => .ok (runSelect rows
      [fun r => decide (r.report_year ∈ ferc1_years),
       fun r => r.plant_name != "",
       fun r => decide (r.respondent_id ∉ missing),
       fun r => decide (r.capacity_rating ≠ 0) || decide (r.net_demand ≠ 0) ||
         decide (r.net_generation ≠ 0) || decide (r.plant_cost ≠ 0) ||
         decide (r.plant_cost_mw ≠ 0) || decide (r.operation ≠ 0) ||
         decide (r.expns_fuel ≠ 0) || decide (r.expns_maint ≠ 0) ||
         decide (r.fuel_cost ≠ 0)])

/-- `plants_hydro(ferc1_meta, ferc1_table, ferc1_years)`. -/
def plants_hydro (ferc1_meta : Ferc1Meta) (ferc1_table : String)
    (ferc1_years : List Int) (missing : List Int) :
    Except ExtractError (List F1Row) :=
  match lookupA ferc1_table ferc1_meta with
  | none => .error (.tableKeyError ferc1_table)
  | some rows => .ok (runSelect rows
      [fun r => r.plant_name != "",
       fun r => decide (r.report_year ∈ ferc1_years),
       fun r => decide (r.respondent_id ∉ missing)])

/-- `plants_pumped_storage(ferc1_meta, ferc1_table, ferc1_years)`. -/
def plants_pumped_storage (ferc1_meta : Ferc1Meta) (ferc1_table : String)
    (ferc1_years : List Int) (missing : List Int) :
    Except ExtractError (List F1Row) :=
  match lookupA ferc1_table ferc1_meta with
  | none => .error (.tableKeyError ferc1_table)
  | some rows => .ok (runSelect rows
      [fun r => r.plant_name != "",
       fun r => decide (r.report_year ∈ ferc1_years),
       fun r => decide (r.respondent_id ∉ missing)])

/-- `plant_in_service(ferc1_meta, ferc1_table, ferc1_years)`; the line-number
mapping is invalid before 2007, hence the extra year bound. -/
def plant_in_service (ferc1_meta : Ferc1Meta) (ferc1_table : String)
    (ferc1_years : List Int) (missing : List Int) :
    Except ExtractError (List F1Row) :=
  match lookupA ferc1_table ferc1_meta with
  | none => .error (.tableKeyError ferc1_table)
  | some rows => .ok (runSelect rows
      [fun r => decide (r.report_year ∈ ferc1_years),
       fun r => decide (r.report_year ≥ 2007),
       fun r => decide (r.respondent_id ∉ missing)])

/-- `purchased_power(ferc1_meta, ferc1_table, ferc1_years)`. -/
def purchased_power (ferc1_meta : Ferc1Meta) (ferc1_table : String)
    (ferc1_years : List Int) (missing : List Int) :
    Except ExtractError (List F1Row) :=
  match lookupA ferc1_table ferc1_meta with
  | none => .error (.tableKeyError ferc1_table)
  | some rows => .ok (runSelect rows
      [fun r => decide (r.report_year ∈ ferc1_years),
       fun r => decide (r.respondent_id ∉ missing)])

/-- `accumulated_depreciation(ferc1_meta, ferc1_table, ferc1_years)`. -/
def accumulated_depreciation (ferc1_meta : Ferc1Meta) (ferc1_table : String)
    (ferc1_years : List Int) (missing : List Int) :
    Except ExtractError (List F1Row) :=
  match lookupA ferc1_table ferc1_meta with
  | none => .error (.tableKeyError ferc1_table)
  | some rows => .ok (runSelect rows
      [fun r => decide (r.report_year ∈ ferc1_years),
       fun r => decide (r.respondent_id ∉ missing)])

/-- The `ferc1_extract_functions` dispatch dict of `extract`. -/
def ferc1_extract_functions :
    List (String ×
      (Ferc1Meta → String → List Int → List Int →
        Except ExtractError (List F1Row))) :=
  [("fuel_ferc1", fuel),
   ("plants_steam_ferc1", plants_steam),
   ("plants_small_ferc1", plants_small),
   ("plants_hydro_ferc1", plants_hydro),
   ("plants_pumped_storage_ferc1", plants_pumped_storage),
   ("plant_in_service_ferc1", plant_in_service),
   ("purchased_power_ferc1", purchased_power),
   ("accumulated_depreciation_ferc1", accumulated_depreciation)]

/-- Modelled from the spec: `pc.ferc1_pudl_tables` (`pudl.constants` is not
among the studied sources) — "the tables which PUDL has integrated", which
§4.5/§6 identify with the tables having a registered extraction predicate,
i.e. exactly the keys of `ferc1_extract_functions`. -/
def ferc1_pudl_tables : List String :=
  ["fuel_ferc1", "plants_steam_ferc1", "plants_small_ferc1",
   "plants_hydro_ferc1", "plants_pumped_storage_ferc1",
   "plant_in_service_ferc1", "purchased_power_ferc1",
   "accumulated_depreciation_ferc1"]

/-- The year-validation loop of `extract`: each requested year must be a
known data year and an integrated (working) year, checked in request
order before anything touches the store. -/
def validateYears (years data_years working_years : List Int) :
    Except ExtractError Unit :=
  match years with
  | [] => .ok ()
  | y :: ys =>
    if y ∉ data_years then .error (.yearNotAvailable y data_years)
    else if y ∉ working_years then .error (.yearNotIntegrated y working_years)
    else validateYears ys data_years working_years

/-- The table-validation loop of `extract`: each requested table must be an
integrated PUDL table. -/
def validateTables (tables pudl_tables : List String) :
    Except ExtractError Unit :=
  match tables with
  | [] => .ok ()
  | t :: ts =>
    if t ∉ pudl_tables then .error (.tableNotIntegrated t pudl_tables)
    else validateTables ts pudl_tables

/-- The extraction loop of `extract`: dispatch each requested table to its
registered extract function, translating the PUDL table name to the FERC 1
table name through `tmap` (`pc.table_map_ferc1_pudl`). -/
def extractTables (ferc1_meta : Ferc1Meta) (tmap : String → String)
    (years missing : List Int) :
    List String → Except ExtractError (List (String × List F1Row))
  | [] => .ok []
  | t :: ts =>
    match lookupA t ferc1_extract_functions with
    | none => .error (.noExtractFunction t)
    | some f => do
      let df ← f ferc1_meta (tmap t) years missing
      let rest ← extractTables ferc1_meta tmap years missing ts
      return (t, df) :: rest

/-- `extract(ferc1_tables, ferc1_years, pudl_settings, testing)`.  The
`pc.data_years['ferc1']` / `pc.working_years['ferc1']` /
`pc.missing_respondents_ferc1` constants and the PUDL-to-FERC table map
are explicit parameters, and the store boundary is the reflected metadata
`ferc1_meta` — consulted only after both validation loops succeed. -/
def extract (ferc1_tables : List String) (ferc1_years : List Int)
    (data_years working_years missing : List Int)
    (tmap : String → String) (ferc1_meta : Ferc1Meta) :
    Except ExtractError (List (String × List F1Row)) :=
  if ferc1_tables.isEmpty || ferc1_years.isEmpty then .ok []
  else do
    validateYears ferc1_years data_years working_years
    validateTables ferc1_tables ferc1_pudl_tables
    if ferc1_meta.isEmpty then Except.error .noTablesFound
    else extractTables ferc1_meta tmap ferc1_years missing ferc1_tables

/-! ## Lemmas about the Python string primitives -/

theorem pyStripP_id {p : Char → Bool} {l : List Char}
    (h : ∀ c ∈ l, p c = false) : pyStripP p l = l := by
  have h1 : l.dropWhile p = l := by
    cases l with
    | nil => rfl
    | cons c cs =>
      exact List.dropWhile_cons_of_neg (by simp [h c (by simp)])
  unfold pyStripP
  rw [h1]
  have h2 : l.reverse.dropWhile p = l.reverse := by
    cases hr : l.reverse with
    | nil => rfl
    | cons c cs =>
      have hc : c ∈ l := by
        have hm : c ∈ l.reverse := by rw [hr]; simp
        simpa using hm
      exact List.dropWhile_cons_of_neg (by simp [h c hc])
  rw [h2, List.reverse_reverse]

theorem pyStripP_padLeft {q : Char → Bool} {a : Char} (hq : q a = true)
    (m : Nat) (l : List Char) :
    pyStripP q (List.replicate m a ++ l) = pyStripP q l := by
  unfold pyStripP
  rw [List.dropWhile_append_of_pos (fun x hx => by
    rw [List.eq_of_mem_replicate hx]; exact hq)]

theorem pyStripP_padRight {q : Char → Bool} {a : Char} (hq : q a = true)
    (n : Nat) (l : List Char) :
    pyStripP q (l ++ List.replicate n a) = pyStripP q l := by
  unfold pyStripP
  rw [List.dropWhile_append]
  by_cases hl : (l.dropWhile q).isEmpty
  · rw [if_pos hl]
    have h0 : l.dropWhile q = [] := by simpa [List.isEmpty_iff] using hl
    have h1 : (List.replicate n a).dropWhile q = [] := by
      rw [List.dropWhile_eq_nil_iff]
      intro x hx; rw [List.eq_of_mem_replicate hx]; exact hq
    rw [h0, h1]
  · rw [if_neg hl, List.reverse_append, List.reverse_replicate,
      List.dropWhile_append_of_pos (fun x hx => by
        rw [List.eq_of_mem_replicate hx]; exact hq)]

/-- Unfolding equation for `ferc1_parseN_data`. -/
theorem ferc1_parseN_data_eq (l : List Char) :
    ferc1_parseN_data l =
      if pyStripP (fun c => c = '0') (pyStripP isStarOrNul (pyStrip l)) = ['.']
      then ['0']
      else pyStripP (fun c => c = '0') (pyStripP isStarOrNul (pyStrip l)) :=
  rfl

/-! ## Claims about the numeric coercion adapter -/

/-- C2, counterexample: on input `"000"` the repair stage of
`FERC1FieldParser.parseN` strips the value down to the empty string — it
does not default an emptied residual to `"0"` — and the decoder therefore
returns the null value `None`, not `0`. -/
theorem parseN_counterexample_all_zeros :
    ferc1_parseN_data ("000".toList) = [] ∧
    ferc1_parseN ("000".toList) = .ok none ∧
    (Except.ok none : Except Unit (Option ℚ)) ≠ .ok (some 0) :=
  ⟨by decide, by decide, by decide⟩

/-- C2, amended: `FERC1FieldParser.parseN` strips leading/trailing
whitespace, then leading/trailing `*`/NUL runs, then leading/trailing `0`
runs, and substitutes a bare `.` with `0`, but it does not guarantee a
non-empty residual: an all-zero field strips to the empty string, which
the generic decoder maps to the null value.  Input `"  007  "` decodes to
`7`, `"."` to `0`, `"00.0"` to `0`, and `"000"` — indeed any run of
zeros — to `None`. -/
theorem parseN_coercion_amended :
    ferc1_parseN ("  007  ".toList) = .ok (some 7) ∧
    ferc1_parseN (".".toList) = .ok (some 0) ∧
    ferc1_parseN ("00.0".toList) = .ok (some 0) ∧
    ∀ k : Nat, ferc1_parseN_data (List.replicate k '0') = [] ∧
      ferc1_parseN (List.replicate k '0') = .ok none := by
  refine ⟨by decide, by decide, by decide, fun k => ?_⟩
  have hws : pyStrip (List.replicate k '0') = List.replicate k '0' :=
    pyStripP_id (fun c hc => by rw [List.eq_of_mem_replicate hc]; decide)
  have hsn : pyStripP isStarOrNul (List.replicate k '0') = List.replicate k '0' :=
    pyStripP_id (fun c hc => by rw [List.eq_of_mem_replicate hc]; decide)
  have hz : pyStripP (fun c => c = '0') (List.replicate k '0') = [] := by
    have hsplit : (List.replicate k '0' : List Char) =
        [] ++ List.replicate k '0' := by simp
    rw [hsplit, pyStripP_padRight (by decide) k []]
    rfl
  have hdata : ferc1_parseN_data (List.replicate k '0') = [] := by
    rw [ferc1_parseN_data_eq, hws, hsn, hz]
    simp
  refine ⟨hdata, ?_⟩
  unfold ferc1_parseN
  rw [hdata]
  decide

/-- C10: the coercion adapter also strips leading and trailing `*`
characters, in the same `strip(b'*\x00')` pass that removes NUL
characters: asterisk padding on either side never changes the result of
that pass, and an asterisk-padded digit field such as `b'**7'` decodes to
the digits' value `7`. -/
theorem parseN_strips_asterisks :
    (∀ (m n : Nat) (s : List Char),
      pyStripP isStarOrNul
          (List.replicate m '*' ++ s ++ List.replicate n '*') =
        pyStripP isStarOrNul s)
    ∧ ∀ m n : Nat,
      ferc1_parseN (List.replicate m '*' ++ ['7'] ++ List.replicate n '*') =
        .ok (some 7) := by
  have hstar : isStarOrNul '*' = true := by decide
  constructor
  · intro m n s
    rw [List.append_assoc, pyStripP_padLeft hstar, pyStripP_padRight hstar]
  · intro m n
    have hws : pyStrip (List.replicate m '*' ++ ['7'] ++ List.replicate n '*') =
        List.replicate m '*' ++ ['7'] ++ List.replicate n '*' := by
      apply pyStripP_id
      intro c hc
      have hc2 : c = '*' ∨ c = '7' := by
        rcases List.mem_append.mp hc with h | h
        · rcases List.mem_append.mp h with h | h
          · exact Or.inl (List.eq_of_mem_replicate h)
          · simp only [List.mem_singleton] at h; exact Or.inr h
        · exact Or.inl (List.eq_of_mem_replicate h)
      rcases hc2 with rfl | rfl <;> decide
    have hdata :
        ferc1_parseN_data (List.replicate m '*' ++ ['7'] ++ List.replicate n '*') =
          ['7'] := by
      rw [ferc1_parseN_data_eq, hws, List.append_assoc, pyStripP_padLeft hstar,
        pyStripP_padRight hstar]
      decide
    unfold ferc1_parseN
    rw [hdata]
    decide

/-! ## Claims about the multi-year loader -/

/-- C3, failing input: with `f1_fuel` requested for 2015 and no data file
present, `get_raw_df` returns `None` and the load loop raises
(`len(None)`) instead of completing as a no-op.  When a DataFrame does
come back, an empty batch is skipped without a write, and an existing but
empty data file still yields a DataFrame. -/
theorem load_step_zero_records :
    get_raw_df [] [(2015 : Int)] (fun _ => none) = none ∧
    dbf2sqlite_load_step "f1_fuel"
        (get_raw_df [] [(2015 : Int)] (fun _ => none)) = .crashed ∧
    get_raw_df [] [(2015 : Int)]
        (fun y => if y = 2015 then some [] else none) = some [] ∧
    ∀ table : String, dbf2sqlite_load_step table (some []) = .skipped := by
  refine ⟨by decide, by decide, by decide, fun table => ?_⟩
  by_cases h : table = "f1_respondent_id" <;>
    simp [dbf2sqlite_load_step, dropDupKeepLast, h]

theorem dropDupKeepLast_ne_nil {l : List RawRow} (h : l ≠ []) :
    dropDupKeepLast l ≠ [] := by
  induction l with
  | nil => exact absurd rfl h
  | cons r rs ih =>
    by_cases hd : rs.any (fun r2 => r2.respondent_id == r.respondent_id)
    · have hrs : rs ≠ [] := by
        intro he; rw [he] at hd; simp at hd
      simpa [dropDupKeepLast, hd] using ih hrs
    · simp [dropDupKeepLast, hd]

theorem dropDupKeepLast_filter (l : List RawRow) (i : Int) :
    (dropDupKeepLast l).filter (fun r => r.respondent_id == i) =
      ((l.filter (fun r => r.respondent_id == i)).getLast?).toList := by
  induction l with
  | nil => simp [dropDupKeepLast]
  | cons r rs ih =>
    by_cases hd : rs.any (fun r2 => r2.respondent_id == r.respondent_id)
    · have hstep : dropDupKeepLast (r :: rs) = dropDupKeepLast rs := by
        simp [dropDupKeepLast, hd]
      rw [hstep, ih]
      by_cases hri : r.respondent_id = i
      · have hne : rs.filter (fun r2 => r2.respondent_id == i) ≠ [] := by
          obtain ⟨r2, hr2mem, hr2⟩ := List.any_eq_true.mp hd
          have hmem : r2 ∈ rs.filter (fun r2 => r2.respondent_id == i) := by
            rw [List.mem_filter]
            refine ⟨hr2mem, ?_⟩
            have : r2.respondent_id = r.respondent_id := by simpa using hr2
            simp [this, hri]
          exact List.ne_nil_of_mem hmem
        rw [List.filter_cons_of_pos (by simp [hri])]
        obtain ⟨x, xs, hxs⟩ := List.exists_cons_of_ne_nil hne
        rw [hxs, List.getLast?_cons_cons]
      · rw [List.filter_cons_of_neg (by simp [hri])]
    · have hstep : dropDupKeepLast (r :: rs) = r :: dropDupKeepLast rs := by
        simp [dropDupKeepLast, hd]
      rw [hstep]
      by_cases hri : r.respondent_id = i
      · have hemp : rs.filter (fun r2 => r2.respondent_id == i) = [] := by
          rw [List.filter_eq_nil_iff]
          intro r2 hr2 hcon
          apply hd
          rw [List.any_eq_true]
          refine ⟨r2, hr2, ?_⟩
          have : r2.respondent_id = i := by simpa using hcon
          simp [this, hri]
        rw [List.filter_cons_of_pos (by simp [hri]), ih,
          List.filter_cons_of_pos (by simp [hri]), hemp]
        simp
      · rw [List.filter_cons_of_neg (by simp [hri]), ih,
          List.filter_cons_of_neg (by simp [hri])]

/-- C5: loading the registry table `f1_respondent_id` writes the
multi-year batch deduplicated by `respondent_id`, keeping the last
occurrence in concatenation order — the row from the last (most recent)
loaded year that defines the identifier — so every identifier present
appears in exactly one written row. -/
theorem registry_dedup_keep_last (dbcEntry : List (String × String))
    (years : List Int) (files : Int → Option (List RawRow)) (df : List RawRow)
    (hdf : get_raw_df dbcEntry years files = some df) (hne : df ≠ []) :
    ∃ out, dbf2sqlite_load_step "f1_respondent_id" (some df) = .written out ∧
      (∀ i : Int, out.filter (fun r => r.respondent_id == i) =
        ((df.filter (fun r => r.respondent_id == i)).getLast?).toList) ∧
      ∀ i : Int, (∃ r ∈ df, r.respondent_id = i) →
        (out.filter (fun r => r.respondent_id == i)).length = 1 := by
  refine ⟨dropDupKeepLast df, ?_, fun i => dropDupKeepLast_filter df i, ?_⟩
  · have hd := dropDupKeepLast_ne_nil hne
    have hlen : ¬ (dropDupKeepLast df).length ≤ 0 := by
      simpa [Nat.le_zero, List.length_eq_zero] using hd
    simp [dbf2sqlite_load_step, hlen]
  · rintro i ⟨r, hr, hri⟩
    rw [dropDupKeepLast_filter]
    have hmem : r ∈ df.filter (fun r2 => r2.respondent_id == i) := by
      rw [List.mem_filter]
      exact ⟨hr, by simp [hri]⟩
    have hne2 := List.ne_nil_of_mem hmem
    cases hlast : (df.filter (fun r2 => r2.respondent_id == i)).getLast? with
    | none =>
      exact absurd (List.getLast?_eq_none_iff.mp hlast) hne2
    | some x => simp

/-- C5, witness: registry rows for identifier `1` from 2009 ("Company A")
and 2010 ("Company B"); only the 2010 row survives the load. -/
theorem registry_dedup_keep_last_witness :
    ∃ out, dbf2sqlite_load_step "f1_respondent_id"
        (some [(⟨1, [("respondent_name", "Company A")]⟩ : RawRow),
               ⟨1, [("respondent_name", "Company B")]⟩]) = .written out ∧
      (∀ i : Int, out.filter (fun r => r.respondent_id == i) =
        (([(⟨1, [("respondent_name", "Company A")]⟩ : RawRow),
           ⟨1, [("respondent_name", "Company B")]⟩].filter
            (fun r => r.respondent_id == i)).getLast?).toList) ∧
      ∀ i : Int,
        (∃ r ∈ [(⟨1, [("respondent_name", "Company A")]⟩ : RawRow),
                ⟨1, [("respondent_name", "Company B")]⟩], r.respondent_id = i) →
        (out.filter (fun r => r.respondent_id == i)).length = 1 :=
  registry_dedup_keep_last [] [2009, 2010]
    (fun y =>
      if y = 2009 then some [⟨1, [("respondent_name", "Company A")]⟩]
      else if y = 2010 then some [⟨1, [("respondent_name", "Company B")]⟩]
      else none)
    [⟨1, [("respondent_name", "Company A")]⟩,
     ⟨1, [("respondent_name", "Company B")]⟩]
    (by decide) (by decide)

/-! ## Claim about the byte-run scanner -/

theorem get_strings_go_eq (minLength : Nat) (acc cs : List Char) :
    get_strings_go minLength acc cs =
      ((cs.splitOnP (fun c => !pyPrintable c)).modifyHead
          (fun r => acc ++ r)).filter
        (fun r => decide (minLength ≤ r.length)) := by
  induction cs generalizing acc with
  | nil =>
    simp only [get_strings_go, List.splitOnP_nil, List.modifyHead_cons,
      List.append_nil]
    by_cases h : minLength ≤ acc.length <;> simp [h]
  | cons c cs ih =>
    have hstep : get_strings_go minLength acc (c :: cs) =
        if pyPrintable c then get_strings_go minLength (acc ++ [c]) cs
        else if minLength ≤ acc.length then
          acc :: get_strings_go minLength [] cs
        else get_strings_go minLength [] cs := rfl
    rw [hstep]
    by_cases hc : pyPrintable c
    · have hq : (!pyPrintable c) = false := by simp [hc]
      rw [if_pos hc, ih, List.splitOnP_cons, hq, if_neg Bool.false_ne_true]
      obtain ⟨x, xs, hx⟩ :=
        List.exists_cons_of_ne_nil (List.splitOnP_ne_nil _ cs)
      rw [hx]
      simp
    · have hq : (!pyPrintable c) = true := by simp [hc]
      rw [if_neg hc, List.splitOnP_cons, hq, if_pos rfl, ih]
      have hid : (cs.splitOnP (fun c => !pyPrintable c)).modifyHead
          (fun r => ([] : List Char) ++ r) =
          cs.splitOnP (fun c => !pyPrintable c) := by
        cases cs.splitOnP (fun c => !pyPrintable c) <;> simp
      rw [hid]
      by_cases h : minLength ≤ acc.length <;> simp [h]

/-- C7: `get_strings(filename, min_length)` yields exactly the maximal
runs of printable characters of length at least `min_length`, in scan
order, the final run being flushed at end of file; undecodable bytes are
dropped at the `open(..., errors="ignore")` boundary (the `contents`
parameter) rather than raising. -/
theorem get_strings_yields_maximal_runs (contents : List Char)
    (minLength : Nat) (hmin : 1 ≤ minLength) :
    get_strings contents minLength =
      (maximalRuns pyPrintable contents).filter
        (fun r => decide (minLength ≤ r.length)) := by
  unfold get_strings maximalRuns
  rw [get_strings_go_eq]
  have hid : (contents.splitOnP (fun c => !pyPrintable c)).modifyHead
      (fun r => ([] : List Char) ++ r) =
      contents.splitOnP (fun c => !pyPrintable c) := by
    cases contents.splitOnP (fun c => !pyPrintable c) <;> simp
  rw [hid, List.filter_filter]
  apply List.filter_congr
  intro r hr
  by_cases h : minLength ≤ r.length
  · have hne : r.isEmpty = false := by
      cases r with
      | nil => simp at h; omega
      | cons a as => simp
    simp [h, hne]
  · simp [h]

/-- C7, witness: scanning `"ab\x00cdef\x01ghij"` with minimum length 4
yields the two long runs only. -/
theorem get_strings_yields_maximal_runs_witness :
    get_strings ("ab\x00cdef\x01ghij".toList) 4 =
      (maximalRuns pyPrintable ("ab\x00cdef\x01ghij".toList)).filter
        (fun r => decide (4 ≤ r.length)) :=
  get_strings_yields_maximal_runs ("ab\x00cdef\x01ghij".toList) 4 (by decide)

/-! ## Claims about the extractor -/

/-- C9: the fuel extraction returns exactly the stored rows with non-empty
fuel type, positive fuel quantity, non-empty plant name, a requested
report year and a respondent outside the known-bad set; in particular, of
a zero-quantity row and a `fuel_quantity = 5` row for "Plant A", exactly
the latter is returned. -/
theorem fuel_quality_filter :
    (∀ (ferc1_meta : Ferc1Meta) (tbl : String) (years missing : List Int)
        (rows : List F1Row),
      lookupA tbl ferc1_meta = some rows →
      ∃ out, fuel ferc1_meta tbl years missing = .ok out ∧
        ∀ r, r ∈ out ↔ r ∈ rows ∧ r.fuel ≠ "" ∧ r.fuel_quantity > 0 ∧
          r.plant_name ≠ "" ∧ r.report_year ∈ years ∧
          r.respondent_id ∉ missing)
    ∧ fuel [("f1_fuel",
        [⟨1, 1994, "gas", 0, "Plant Zero", 0, 0, 0, 0, 0, 0, 0, 0, 0, 0, []⟩,
         ⟨2, 1994, "coal", 5, "Plant A", 0, 0, 0, 0, 0, 0, 0, 0, 0, 0, []⟩])]
        "f1_fuel" [1994] [] =
      .ok [⟨2, 1994, "coal", 5, "Plant A", 0, 0, 0, 0, 0, 0, 0, 0, 0, 0, []⟩] := by
  constructor
  · intro ferc1_meta tbl years missing rows hlook
    have hfe : fuel ferc1_meta tbl years missing = .ok (runSelect rows
        [fun r => r.fuel != "",
         fun r => decide (r.fuel_quantity > 0),
         fun r => r.plant_name != "",
         fun r => decide (r.report_year ∈ years),
         fun r => decide (r.respondent_id ∉ missing)]) := by
      unfold fuel
      rw [hlook]
    refine ⟨_, hfe, ?_⟩
    intro r
    simp [runSelect, List.mem_filter, and_assoc]
    tauto
  · decide

/-- C9, witness: the general filter characterisation applied to the
two-row store of the example. -/
theorem fuel_quality_filter_witness :
    ∃ out, fuel [("f1_fuel",
        [⟨1, 1994, "gas", 0, "Plant Zero", 0, 0, 0, 0, 0, 0, 0, 0, 0, 0, []⟩,
         ⟨2, 1994, "coal", 5, "Plant A", 0, 0, 0, 0, 0, 0, 0, 0, 0, 0, []⟩])]
        "f1_fuel" [1994] [] = .ok out ∧
      ∀ r, r ∈ out ↔
        r ∈ [(⟨1, 1994, "gas", 0, "Plant Zero", 0, 0, 0, 0, 0, 0, 0, 0, 0, 0, []⟩ : F1Row),
             ⟨2, 1994, "coal", 5, "Plant A", 0, 0, 0, 0, 0, 0, 0, 0, 0, 0, []⟩] ∧
        r.fuel ≠ "" ∧ r.fuel_quantity > 0 ∧ r.plant_name ≠ "" ∧
        r.report_year ∈ [(1994 : Int)] ∧ r.respondent_id ∉ ([] : List Int) :=
  fuel_quality_filter.1 _ "f1_fuel" [1994] []
    [⟨1, 1994, "gas", 0, "Plant Zero", 0, 0, 0, 0, 0, 0, 0, 0, 0, 0, []⟩,
     ⟨2, 1994, "coal", 5, "Plant A", 0, 0, 0, 0, 0, 0, 0, 0, 0, 0, []⟩]
    (by decide)

theorem validateYears_ok_iff (years dy wy : List Int) :
    validateYears years dy wy = .ok () ↔ ∀ y ∈ years, y ∈ dy ∧ y ∈ wy := by
  induction years with
  | nil => simp [validateYears]
  | cons y ys ih =>
    by_cases h1 : y ∈ dy
    · by_cases h2 : y ∈ wy
      · simp [validateYears, h1, h2, ih]
      · simp [validateYears, h1, h2]
    · simp [validateYears, h1]

theorem validateYears_error_of_bad (years dy wy : List Int)
    (hbad : ∃ y ∈ years, y ∉ dy ∨ y ∉ wy) :
    ∃ y, y ∈ years ∧
      ((y ∉ dy ∧
        validateYears years dy wy = .error (.yearNotAvailable y dy)) ∨
       (y ∉ wy ∧
        validateYears years dy wy = .error (.yearNotIntegrated y wy))) := by
  induction years with
  | nil => simp at hbad
  | cons y ys ih =>
    by_cases h1 : y ∈ dy
    · by_cases h2 : y ∈ wy
      · have hbad2 : ∃ z ∈ ys, z ∉ dy ∨ z ∉ wy := by
          obtain ⟨z, hz, hzb⟩ := hbad
          rcases List.mem_cons.mp hz with rfl | hz2
          · rcases hzb with hzb | hzb
            · exact absurd h1 hzb
            · exact absurd h2 hzb
          · exact ⟨z, hz2, hzb⟩
        obtain ⟨z, hz, hres⟩ := ih hbad2
        have hstep : validateYears (y :: ys) dy wy = validateYears ys dy wy := by
          simp [validateYears, h1, h2]
        rw [← hstep] at hres
        exact ⟨z, List.mem_cons_of_mem _ hz, hres⟩
      · exact ⟨y, List.mem_cons_self _ _,
          Or.inr ⟨h2, by simp [validateYears, h1, h2]⟩⟩
    · exact ⟨y, List.mem_cons_self _ _,
        Or.inl ⟨h1, by simp [validateYears, h1]⟩⟩

theorem validateTables_ok_iff (tables pt : List String) :
    validateTables tables pt = .ok () ↔ ∀ t ∈ tables, t ∈ pt := by
  induction tables with
  | nil => simp [validateTables]
  | cons t ts ih =>
    by_cases h : t ∈ pt
    · simp [validateTables, h, ih]
    · simp [validateTables, h]

theorem validateTables_error_of_bad (tables pt : List String)
    (hbad : ∃ t ∈ tables, t ∉ pt) :
    ∃ t, t ∈ tables ∧ t ∉ pt ∧
      validateTables tables pt = .error (.tableNotIntegrated t pt) := by
  induction tables with
  | nil => simp at hbad
  | cons t ts ih =>
    by_cases h : t ∈ pt
    · have hbad2 : ∃ z ∈ ts, z ∉ pt := by
        obtain ⟨z, hz, hzb⟩ := hbad
        rcases List.mem_cons.mp hz with rfl | hz2
        · exact absurd h hzb
        · exact ⟨z, hz2, hzb⟩
      obtain ⟨z, hz, hzn, hres⟩ := ih hbad2
      have hstep : validateTables (t :: ts) pt = validateTables ts pt := by
        simp [validateTables, h]
      rw [← hstep] at hres
      exact ⟨z, List.mem_cons_of_mem _ hz, hzn, hres⟩
    · exact ⟨t, List.mem_cons_self _ _, h, by simp [validateTables, h]⟩

theorem extract_eq_of_ne (tables : List String) (years dy wy missing : List Int)
    (tmap : String → String) (meta : Ferc1Meta)
    (ht : tables ≠ []) (hy : years ≠ []) :
    extract tables years dy wy missing tmap meta =
      (do validateYears years dy wy
          validateTables tables ferc1_pudl_tables
          if meta.isEmpty then Except.error .noTablesFound
          else extractTables meta tmap years missing tables) := by
  unfold extract
  rw [if_neg (by simp [List.isEmpty_iff, ht, hy])]

/-- C4: `extract` returns an empty mapping on an empty table or year
request; a requested year outside the known data years, or outside the
integrated working years, raises a `ValueError` carrying the valid set —
independently of the relational store, which is not consulted; and a
requested table with no registered extraction function likewise raises a
`ValueError` carrying the integrated table set. -/
theorem extract_input_validation :
    (∀ (years dy wy missing : List Int) (tmap : String → String)
        (meta : Ferc1Meta),
      extract [] years dy wy missing tmap meta = .ok [])
    ∧ (∀ (tables : List String) (dy wy missing : List Int)
        (tmap : String → String) (meta : Ferc1Meta),
      extract tables [] dy wy missing tmap meta = .ok [])
    ∧ (∀ (tables : List String) (years dy wy missing : List Int)
        (tmap : String → String),
        tables ≠ [] →
        (∃ y ∈ years, y ∉ dy ∨ y ∉ wy) →
        ∃ y e, y ∈ years ∧
          ((y ∉ dy ∧ e = ExtractError.yearNotAvailable y dy) ∨
           (y ∉ wy ∧ e = ExtractError.yearNotIntegrated y wy)) ∧
          ∀ meta : Ferc1Meta,
            extract tables years dy wy missing tmap meta = .error e)
    ∧ (∀ (tables : List String) (years dy wy missing : List Int)
        (tmap : String → String),
        years ≠ [] → (∀ y ∈ years, y ∈ dy ∧ y ∈ wy) →
        (∃ t ∈ tables, t ∉ ferc1_pudl_tables) →
        ∃ t, t ∈ tables ∧ t ∉ ferc1_pudl_tables ∧
          ∀ meta : Ferc1Meta,
            extract tables years dy wy missing tmap meta =
              .error (.tableNotIntegrated t ferc1_pudl_tables)) := by
  refine ⟨?_, ?_, ?_, ?_⟩
  · intro years dy wy missing tmap meta
    simp [extract]
  · intro tables dy wy missing tmap meta
    simp [extract]
  · intro tables years dy wy missing tmap ht hbad
    have hy : years ≠ [] := by rintro rfl; simp at hbad
    obtain ⟨y, hymem, hcase⟩ := validateYears_error_of_bad years dy wy hbad
    rcases hcase with ⟨hnd, herr⟩ | ⟨hnw, herr⟩
    · refine ⟨y, _, hymem, Or.inl ⟨hnd, rfl⟩, fun meta => ?_⟩
      rw [extract_eq_of_ne tables years dy wy missing tmap meta ht hy, herr]
      rfl
    · refine ⟨y, _, hymem, Or.inr ⟨hnw, rfl⟩, fun meta => ?_⟩
      rw [extract_eq_of_ne tables years dy wy missing tmap meta ht hy, herr]
      rfl
  · intro tables years dy wy missing tmap hy hok hbad
    obtain ⟨t, htmem, htn, herr⟩ :=
      validateTables_error_of_bad tables ferc1_pudl_tables hbad
    have ht : tables ≠ [] := List.ne_nil_of_mem htmem
    refine ⟨t, htmem, htn, fun meta => ?_⟩
    have h1 : extract tables years dy wy missing tmap meta =
        (do validateTables tables ferc1_pudl_tables
            if meta.isEmpty then Except.error .noTablesFound
            else extractTables meta tmap years missing tables) := by
      rw [extract_eq_of_ne tables years dy wy missing tmap meta ht hy,
        (validateYears_ok_iff years dy wy).mpr hok]
      rfl
    rw [h1, herr]
    rfl

/-- C4, witness: an empty request yields `{}`; requesting 1993 against
data years `[1994]` fails with the year error before any store access;
requesting table `"bogus"` with valid years fails with the table error. -/
theorem extract_input_validation_witness :
    extract [] [1994] [1994] [1994] [] (fun t => t) [] = .ok [] ∧
    (∃ y e, y ∈ [(1993 : Int)] ∧
      ((y ∉ [(1994 : Int)] ∧ e = ExtractError.yearNotAvailable y [1994]) ∨
       (y ∉ [(1994 : Int)] ∧ e = ExtractError.yearNotIntegrated y [1994])) ∧
      ∀ meta : Ferc1Meta,
        extract ["fuel_ferc1"] [1993] [1994] [1994] [] (fun t => t) meta =
          .error e) ∧
    (∃ t, t ∈ ["bogus"] ∧ t ∉ ferc1_pudl_tables ∧
      ∀ meta : Ferc1Meta,
        extract ["bogus"] [1994] [1994] [1994] [] (fun t => t) meta =
          .error (.tableNotIntegrated t ferc1_pudl_tables)) :=
  ⟨extract_input_validation.1 [1994] [1994] [1994] [] (fun t => t) [],
   extract_input_validation.2.2.1 ["fuel_ferc1"] [1993] [1994] [1994] []
     (fun t => t) (by decide) ⟨1993, by decide, by decide⟩,
   extract_input_validation.2.2.2 ["bogus"] [1994] [1994] [1994] []
     (fun t => t) (by decide) (by decide) ⟨"bogus", by decide, by decide⟩⟩

/-! ## Claims about the catalog reconstructor -/

theorem exceptBind_ok {ε α β : Type} (a : α) (f : α → Except ε β) :
    (Except.ok a >>= f) = f a := rfl

theorem exceptBind_error {ε α β : Type} (e : ε) (f : α → Except ε β) :
    ((Except.error e : Except ε α) >>= f) = Except.error e := rfl

theorem char_toNat_ofNat_valid {n : Nat} (h : n.isValidChar) :
    (Char.ofNat n).toNat = n := by
  rw [Char.ofNat, dif_pos h]
  rfl

theorem toLower_idem (c : Char) : c.toLower.toLower = c.toLower := by
  unfold Char.toLower
  by_cases h : c.toNat ≥ 65 ∧ c.toNat ≤ 90
  · rw [if_pos h]
    have hv : (c.toNat + 32).isValidChar := Or.inl (by omega)
    rw [char_toNat_ofNat_valid hv, if_neg (by omega)]
  · rw [if_neg h, if_neg h]

theorem map_toLower_idem (l : List Char) :
    (l.map Char.toLower).map Char.toLower = l.map Char.toLower := by
  rw [List.map_map]
  exact List.map_congr_left (fun c _ => toLower_idem c)

theorem checkEntry_ok_iff (fm : List (List Char × List Char)) :
    checkEntry fm = .ok () ↔
      ∀ sn ln, (sn, ln) ∈ fm →
        ln.take 8 = (sn.map Char.toLower).take 8 := by
  induction fm with
  | nil => simp [checkEntry]
  | cons p rest ih =>
    obtain ⟨sn, ln⟩ := p
    by_cases h : ln.take 8 = (sn.map Char.toLower).take 8
    · rw [show checkEntry ((sn, ln) :: rest) = checkEntry rest from by
        simp [checkEntry, h]]
      rw [ih]
      constructor
      · intro hall sn2 ln2 hmem
        rcases List.mem_cons.mp hmem with heq | hmem2
        · cases heq
          exact h
        · exact hall sn2 ln2 hmem2
      · intro hall sn2 ln2 hmem
        exact hall sn2 ln2 (List.mem_cons_of_mem _ hmem)
    · rw [show checkEntry ((sn, ln) :: rest) =
          .error (.fieldNameMismatch sn ln) from by simp [checkEntry, h]]
      exact ⟨fun hcon => absurd hcon (by simp),
        fun hall => absurd (hall sn ln (List.mem_cons_self _ _)) h⟩

theorem checkEntry_shape (fm : List (List Char × List Char)) :
    checkEntry fm = .ok () ∨
      ∃ sn ln, checkEntry fm = .error (.fieldNameMismatch sn ln) := by
  induction fm with
  | nil => exact Or.inl rfl
  | cons p rest ih =>
    obtain ⟨sn, ln⟩ := p
    by_cases h : ln.take 8 = (sn.map Char.toLower).take 8
    · rw [show checkEntry ((sn, ln) :: rest) = checkEntry rest from by
        simp [checkEntry, h]]
      exact ih
    · exact Or.inr ⟨sn, ln, by simp [checkEntry, h]⟩

theorem checkDbcMap_ok_iff (m : List (List Char × List (List Char × List Char))) :
    checkDbcMap m = .ok () ↔
      ∀ t fm, (t, fm) ∈ m → checkEntry fm = .ok () := by
  induction m with
  | nil => simp [checkDbcMap]
  | cons p rest ih =>
    obtain ⟨t, fm⟩ := p
    cases hce : checkEntry fm with
    | error e =>
      rw [show checkDbcMap ((t, fm) :: rest) = .error e from by
        simp [checkDbcMap, exceptBind_error, hce]]
      constructor
      · intro hcon; exact absurd hcon (by simp)
      · intro hall
        have := hall t fm (List.mem_cons_self _ _)
        rw [hce] at this
        exact absurd this (by simp)
    | ok u =>
      cases u
      rw [show checkDbcMap ((t, fm) :: rest) = checkDbcMap rest from by
        simp [checkDbcMap, exceptBind_ok, hce]]
      rw [ih]
      constructor
      · intro hall t2 fm2 hmem
        rcases List.mem_cons.mp hmem with heq | hmem2
        · cases heq
          exact hce
        · exact hall t2 fm2 hmem2
      · intro hall t2 fm2 hmem
        exact hall t2 fm2 (List.mem_cons_of_mem _ hmem)

theorem checkDbcMap_shape (m : List (List Char × List (List Char × List Char))) :
    checkDbcMap m = .ok () ∨
      ∃ sn ln, checkDbcMap m = .error (.fieldNameMismatch sn ln) := by
  induction m with
  | nil => exact Or.inl rfl
  | cons p rest ih =>
    obtain ⟨t, fm⟩ := p
    rcases checkEntry_shape fm with hce | ⟨sn, ln, hce⟩
    · rw [show checkDbcMap ((t, fm) :: rest) = checkDbcMap rest from by
        simp [checkDbcMap, exceptBind_ok, hce]]
      exact ih
    · exact Or.inr ⟨sn, ln, by simp [checkDbcMap, exceptBind_error, hce]⟩

theorem buildDbcMap_cons (tfd : List (List Char × List (List Char)))
    (dbfFields : List Char → Option (List (List Char)))
    (t : List Char) (ts : List (List Char)) :
    buildDbcMap tfd dbfFields (t :: ts) =
      match dbfFields t with
      | none => buildDbcMap tfd dbfFields ts
      | some fields =>
        match lookupA t tfd with
        | none => .error (.missingTable t)
        | some tfs =>
          if tfs.length =
              (fields.filter (fun f => f ≠ "_NullFlags".toList)).length then
            (buildDbcMap tfd dbfFields ts).map
              (fun m =>
                (t, ((fields.filter (fun f => f ≠ "_NullFlags".toList)).zip
                  tfs).foldl (fun d kv => pyDictSet kv.1 kv.2 d) []) :: m)
          else .error (.fieldCountMismatch t) := rfl

theorem exceptMap_ok {ε α β : Type} (f : α → β) (a : α) :
    (Except.ok a : Except ε α).map f = Except.ok (f a) := rfl

theorem exceptPure_eq {ε α : Type} (a : α) :
    (pure a : Except ε α) = Except.ok a := rfl

theorem buildDbcMap_ok_mem
    {tfd : List (List Char × List (List Char))}
    {dbfFields : List Char → Option (List (List Char))}
    {tables : List (List Char)}
    {m : List (List Char × List (List Char × List Char))}
    (h : buildDbcMap tfd dbfFields tables = .ok m) :
    ∀ table ∈ tables, ∀ fields, dbfFields table = some fields →
      ∃ tfs, lookupA table tfd = some tfs ∧
        tfs.length =
          (fields.filter (fun f => f ≠ "_NullFlags".toList)).length ∧
        (table, ((fields.filter (fun f => f ≠ "_NullFlags".toList)).zip
          tfs).foldl (fun d kv => pyDictSet kv.1 kv.2 d) []) ∈ m := by
  induction tables generalizing m with
  | nil =>
    intro table htm
    simp at htm
  | cons t ts ih =>
    intro table htm fields hfld
    rw [buildDbcMap_cons] at h
    cases hft : dbfFields t with
    | none =>
      simp only [hft] at h
      rcases List.mem_cons.mp htm with rfl | htm2
      · rw [hft] at hfld
        exact absurd hfld (by simp)
      · exact ih h table htm2 fields hfld
    | some fields0 =>
      simp only [hft] at h
      cases hlk : lookupA t tfd with
      | none =>
        simp only [hlk] at h
        exact absurd h (by simp)
      | some tfs0 =>
        simp only [hlk] at h
        by_cases hlen : tfs0.length =
            (fields0.filter (fun f => f ≠ "_NullFlags".toList)).length
        · rw [if_pos hlen] at h
          cases hrec : buildDbcMap tfd dbfFields ts with
          | error e =>
            rw [hrec] at h
            exact absurd h (by simp [Except.map])
          | ok m2 =>
            rw [hrec, exceptMap_ok] at h
            have hm : m =
                (t, ((fields0.filter (fun f => f ≠ "_NullFlags".toList)).zip
                  tfs0).foldl (fun d kv => pyDictSet kv.1 kv.2 d) []) :: m2 :=
              (Except.ok.inj h).symm
            rcases List.mem_cons.mp htm with rfl | htm2
            · rw [hft] at hfld
              have hfe : fields = fields0 := by
                injection hfld with hh
                exact hh.symm
              subst hfe
              exact ⟨tfs0, hlk, hlen, by rw [hm]; exact List.mem_cons_self _ _⟩
            · obtain ⟨tfs, ha, hb, hc⟩ := ih hrec table htm2 fields hfld
              exact ⟨tfs, ha, hb, by rw [hm]; exact List.mem_cons_of_mem _ hc⟩
        · rw [if_neg hlen] at h
          exact absurd h (by simp)

theorem buildDbcMap_error_of_mismatch
    {tfd : List (List Char × List (List Char))}
    {dbfFields : List Char → Option (List (List Char))}
    {tables : List (List Char)}
    {table : List Char} {fields : List (List Char)} {tfs : List (List Char)}
    (htm : table ∈ tables)
    (hfld : dbfFields table = some fields)
    (hlk : lookupA table tfd = some tfs)
    (hlen : tfs.length ≠
      (fields.filter (fun f => f ≠ "_NullFlags".toList)).length) :
    ∃ e, buildDbcMap tfd dbfFields tables = .error e := by
  induction tables with
  | nil => simp at htm
  | cons t ts ih =>
    rw [buildDbcMap_cons]
    rcases List.mem_cons.mp htm with rfl | htm2
    · simp only [hfld, hlk]
      rw [if_neg hlen]
      exact ⟨.fieldCountMismatch table, rfl⟩
    · cases hft : dbfFields t with
      | none =>
        simp only [hft]
        exact ih htm2
      | some fields0 =>
        simp only [hft]
        cases hlk0 : lookupA t tfd with
        | none =>
          simp only [hlk0]
          exact ⟨.missingTable t, rfl⟩
        | some tfs0 =>
          simp only [hlk0]
          by_cases hl0 : tfs0.length =
              (fields0.filter (fun f => f ≠ "_NullFlags".toList)).length
          · rw [if_pos hl0]
            obtain ⟨e, he⟩ := ih htm2
            rw [he]
            exact ⟨e, rfl⟩
          · rw [if_neg hl0]
            exact ⟨.fieldCountMismatch t, rfl⟩

theorem get_dbc_map_ok_elim
    {dbcContents : List Char} {minLength : Nat}
    {tables : List (List Char)}
    {dbfFields : List Char → Option (List (List Char))}
    {m : List (List Char × List (List Char × List Char))}
    (h : get_dbc_map dbcContents minLength tables dbfFields = .ok m) :
    ∃ tfd, buildTfDict (dbcTableStrings dbcContents minLength) = .ok tfd ∧
      buildDbcMap tfd dbfFields tables = .ok m ∧
      checkDbcMap m = .ok () := by
  unfold get_dbc_map at h
  cases h1 : buildTfDict (dbcTableStrings dbcContents minLength) with
  | error e =>
    rw [h1, exceptBind_error] at h
    exact absurd h (by simp)
  | ok tfd =>
    rw [h1, exceptBind_ok] at h
    cases h2 : buildDbcMap tfd dbfFields tables with
    | error e =>
      rw [h2, exceptBind_error] at h
      exact absurd h (by simp)
    | ok m2 =>
      rw [h2, exceptBind_ok] at h
      cases h3 : checkDbcMap m2 with
      | error e =>
        rw [h3, exceptBind_error] at h
        exact absurd h (by simp)
      | ok u =>
        cases u
        rw [h3, exceptBind_ok, exceptPure_eq] at h
        have hm : m2 = m := Except.ok.inj h
        subst hm
        exact ⟨tfd, rfl, h2, h3⟩

theorem get_dbc_map_eq_of_stages
    {dbcContents : List Char} {minLength : Nat}
    {tables : List (List Char)}
    {dbfFields : List Char → Option (List (List Char))}
    {tfd : List (List Char × List (List Char))}
    {m : List (List Char × List (List Char × List Char))}
    (h1 : buildTfDict (dbcTableStrings dbcContents minLength) = .ok tfd)
    (h2 : buildDbcMap tfd dbfFields tables = .ok m) :
    get_dbc_map dbcContents minLength tables dbfFields =
      (checkDbcMap m >>= fun _ => Except.ok m) := by
  unfold get_dbc_map
  rw [h1, exceptBind_ok, h2, exceptBind_ok]
  rfl

/-- C1: every `(truncated_name, true_name)` pair of a successfully
reconstructed catalog map satisfies the case-insensitive 8-character
prefix match — the source's `assert ln[:8] == sn.lower()[:8]` is stronger
and implies it — and any pair violating the case-insensitive match makes
the final integrity loop abort reconstruction with the assertion
failure. -/
theorem get_dbc_map_eight_char_integrity :
    (∀ (dbcContents : List Char) (minLength : Nat)
        (tables : List (List Char))
        (dbfFields : List Char → Option (List (List Char)))
        (m : List (List Char × List (List Char × List Char))),
      get_dbc_map dbcContents minLength tables dbfFields = .ok m →
      ∀ t fm, (t, fm) ∈ m → ∀ sn ln, (sn, ln) ∈ fm →
        (ln.map Char.toLower).take 8 = (sn.map Char.toLower).take 8)
    ∧
    (∀ (dbcContents : List Char) (minLength : Nat)
        (tables : List (List Char))
        (dbfFields : List Char → Option (List (List Char)))
        (tfd : List (List Char × List (List Char)))
        (m : List (List Char × List (List Char × List Char))),
      buildTfDict (dbcTableStrings dbcContents minLength) = .ok tfd →
      buildDbcMap tfd dbfFields tables = .ok m →
      (∃ t fm sn ln, (t, fm) ∈ m ∧ (sn, ln) ∈ fm ∧
        (ln.map Char.toLower).take 8 ≠ (sn.map Char.toLower).take 8) →
      ∃ sn ln, get_dbc_map dbcContents minLength tables dbfFields =
        .error (.fieldNameMismatch sn ln)) := by
  constructor
  · intro dbcContents minLength tables dbfFields m hok t fm htm sn ln hpair
    obtain ⟨tfd, _, _, h3⟩ := get_dbc_map_ok_elim hok
    have hcode := ((checkEntry_ok_iff fm).mp
      ((checkDbcMap_ok_iff m).mp h3 t fm htm)) sn ln hpair
    calc (ln.map Char.toLower).take 8
        = (ln.take 8).map Char.toLower := (List.map_take Char.toLower ln 8).symm
      _ = ((sn.map Char.toLower).take 8).map Char.toLower := by rw [hcode]
      _ = ((sn.map Char.toLower).map Char.toLower).take 8 :=
          List.map_take Char.toLower (sn.map Char.toLower) 8
      _ = (sn.map Char.toLower).take 8 := by rw [map_toLower_idem]
  · intro dbcContents minLength tables dbfFields tfd m h1 h2 hviol
    obtain ⟨t, fm, sn, ln, htm, hpair, hne⟩ := hviol
    have hcodefail : ln.take 8 ≠ (sn.map Char.toLower).take 8 := by
      intro heq
      apply hne
      calc (ln.map Char.toLower).take 8
          = (ln.take 8).map Char.toLower := (List.map_take Char.toLower ln 8).symm
        _ = ((sn.map Char.toLower).take 8).map Char.toLower := by rw [heq]
        _ = ((sn.map Char.toLower).map Char.toLower).take 8 :=
            List.map_take Char.toLower (sn.map Char.toLower) 8
        _ = (sn.map Char.toLower).take 8 := by rw [map_toLower_idem]
    have hnok : checkDbcMap m ≠ .ok () := by
      intro hok3
      exact hcodefail (((checkEntry_ok_iff fm).mp
        ((checkDbcMap_ok_iff m).mp hok3 t fm htm)) sn ln hpair)
    rcases checkDbcMap_shape m with hsh | ⟨sn2, ln2, hsh⟩
    · exact absurd hsh hnok
    · refine ⟨sn2, ln2, ?_⟩
      rw [get_dbc_map_eq_of_stages h1 h2, hsh]
      rfl

/-- C1, witness: a two-field catalog whose names pass the check, and a
corrupted variant whose physical field name `XXXX` cannot match
`respondent_id`, aborting with the assertion failure. -/
theorem get_dbc_map_eight_char_integrity_witness :
    (("respondent_id".toList.map Char.toLower).take 8 =
      ("RESPONDENT".toList.map Char.toLower).take 8) ∧
    ∃ sn ln,
      get_dbc_map ("Table f1_fuel\x00\x00Field respondent_id\x00".toList) 4
        ["f1_fuel".toList]
        (fun t => if t = "f1_fuel".toList then
            some ["XXXX".toList, "_NullFlags".toList] else none) =
        .error (.fieldNameMismatch sn ln) :=
  ⟨get_dbc_map_eight_char_integrity.1
      ("Table f1_fuel\x00\x00Field respondent_id\x00\x01Field fuel junk\x00".toList)
      4 ["f1_fuel".toList]
      (fun t => if t = "f1_fuel".toList then
          some ["RESPONDENT".toList, "FUEL".toList, "_NullFlags".toList]
        else none)
      [("f1_fuel".toList,
        [("RESPONDENT".toList, "respondent_id".toList),
         ("FUEL".toList, "fuel".toList)])]
      (by decide) "f1_fuel".toList
      [("RESPONDENT".toList, "respondent_id".toList),
       ("FUEL".toList, "fuel".toList)]
      (by decide) "RESPONDENT".toList "respondent_id".toList (by decide),
   get_dbc_map_eight_char_integrity.2
      ("Table f1_fuel\x00\x00Field respondent_id\x00".toList) 4
      ["f1_fuel".toList]
      (fun t => if t = "f1_fuel".toList then
          some ["XXXX".toList, "_NullFlags".toList] else none)
      [("f1_fuel".toList, ["respondent_id".toList])]
      [("f1_fuel".toList, [("XXXX".toList, "respondent_id".toList)])]
      (by decide) (by decide)
      ⟨"f1_fuel".toList, [("XXXX".toList, "respondent_id".toList)],
       "XXXX".toList, "respondent_id".toList,
       by decide, by decide, by decide⟩⟩

/-- C6: a successful `get_dbc_map` certifies that, for every known table
whose reference-year data file is present, the catalog field count equals
the physical field count with the `_NullFlags` pseudo-field excluded; a
mismatch for any such table aborts reconstruction with an error. -/
theorem get_dbc_map_field_count_check :
    (∀ (dbcContents : List Char) (minLength : Nat)
        (tables : List (List Char))
        (dbfFields : List Char → Option (List (List Char)))
        (tfd : List (List Char × List (List Char)))
        (m : List (List Char × List (List Char × List Char))),
      buildTfDict (dbcTableStrings dbcContents minLength) = .ok tfd →
      get_dbc_map dbcContents minLength tables dbfFields = .ok m →
      ∀ table ∈ tables, ∀ fields, dbfFields table = some fields →
        ∃ tfs, lookupA table tfd = some tfs ∧
          tfs.length =
            (fields.filter (fun f => f ≠ "_NullFlags".toList)).length)
    ∧
    (∀ (dbcContents : List Char) (minLength : Nat)
        (tables : List (List Char))
        (dbfFields : List Char → Option (List (List Char)))
        (tfd : List (List Char × List (List Char)))
        (table : List Char) (fields : List (List Char))
        (tfs : List (List Char)),
      buildTfDict (dbcTableStrings dbcContents minLength) = .ok tfd →
      table ∈ tables → dbfFields table = some fields →
      lookupA table tfd = some tfs →
      tfs.length ≠ (fields.filter (fun f => f ≠ "_NullFlags".toList)).length →
      ∃ e, get_dbc_map dbcContents minLength tables dbfFields = .error e) := by
  constructor
  · intro dbcContents minLength tables dbfFields tfd m htf hok table htm
      fields hfld
    obtain ⟨tfd2, h1, h2, _⟩ := get_dbc_map_ok_elim hok
    have htt : tfd2 = tfd := Except.ok.inj (htf.symm.trans h1).symm
    subst htt
    obtain ⟨tfs, ha, hb, _⟩ := buildDbcMap_ok_mem h2 table htm fields hfld
    exact ⟨tfs, ha, hb⟩
  · intro dbcContents minLength tables dbfFields tfd table fields tfs htf htm
      hfld hlk hlen
    obtain ⟨e, he⟩ := buildDbcMap_error_of_mismatch htm hfld hlk hlen
    refine ⟨e, ?_⟩
    unfold get_dbc_map
    rw [htf, exceptBind_ok, he, exceptBind_error]

/-- C6, witness: the field counts agree on the well-formed catalog, and a
data file with one real field against a two-name catalog aborts. -/
theorem get_dbc_map_field_count_check_witness :
    (∃ tfs, lookupA "f1_fuel".toList
        [("f1_fuel".toList, ["respondent_id".toList, "fuel".toList])] =
        some tfs ∧
      tfs.length =
        ((["RESPONDENT".toList, "FUEL".toList, "_NullFlags".toList] :
            List (List Char)).filter
          (fun f => f ≠ "_NullFlags".toList)).length) ∧
    ∃ e,
      get_dbc_map
        ("Table f1_fuel\x00\x00Field respondent_id\x00\x01Field fuel junk\x00".toList)
        4 ["f1_fuel".toList]
        (fun t => if t = "f1_fuel".toList then
            some ["RESPONDENT".toList, "_NullFlags".toList] else none) =
        .error e :=
  ⟨get_dbc_map_field_count_check.1
      ("Table f1_fuel\x00\x00Field respondent_id\x00\x01Field fuel junk\x00".toList)
      4 ["f1_fuel".toList]
      (fun t => if t = "f1_fuel".toList then
          some ["RESPONDENT".toList, "FUEL".toList, "_NullFlags".toList]
        else none)
      [("f1_fuel".toList, ["respondent_id".toList, "fuel".toList])]
      [("f1_fuel".toList,
        [("RESPONDENT".toList, "respondent_id".toList),
         ("FUEL".toList, "fuel".toList)])]
      (by decide) (by decide) "f1_fuel".toList (by decide)
      ["RESPONDENT".toList, "FUEL".toList, "_NullFlags".toList] (by decide),
   get_dbc_map_field_count_check.2
      ("Table f1_fuel\x00\x00Field respondent_id\x00\x01Field fuel junk\x00".toList)
      4 ["f1_fuel".toList]
      (fun t => if t = "f1_fuel".toList then
          some ["RESPONDENT".toList, "_NullFlags".toList] else none)
      [("f1_fuel".toList, ["respondent_id".toList, "fuel".toList])]
      "f1_fuel".toList ["RESPONDENT".toList, "_NullFlags".toList]
      ["respondent_id".toList, "fuel".toList]
      (by decide) (by decide) (by decide) (by decide) (by decide)⟩

/-! ## Claim about the schema synthesizer -/

theorem add_sqlite_table_ok_shape
    {table_name : List Char}
    {dbc_map : List (List Char × List (List Char × List Char))}
    {refFields : List DbfFieldDescr}
    {bad_cols : List (List Char × List Char)}
    {typemap : Char → ColType}
    {s : SqliteTable}
    (h : add_sqlite_table table_name dbc_map refFields bad_cols typemap =
      .ok s) :
    s.name = table_name ∧
    s.pk = (if table_name = "f1_respondent_id".toList then
        some ⟨["respondent_id".toList], true⟩ else none) ∧
    s.fks = (if "respondent_id".toList ∈ s.cols.map (fun c => c.1) ∧
        table_name ≠ "f1_respondent_id".toList then
        [⟨["respondent_id".toList], ["f1_respondent_id.respondent_id".toList]⟩]
      else []) := by
  unfold add_sqlite_table at h
  cases hlk : lookupA table_name dbc_map with
  | none =>
    simp only [hlk, exceptBind_error] at h
    exact absurd h (by simp)
  | some entry =>
    simp only [hlk, exceptBind_ok] at h
    cases hcols : add_sqlite_table_cols table_name entry refFields bad_cols
        typemap with
    | error e =>
      rw [hcols, exceptBind_error] at h
      exact absurd h (by simp)
    | ok cols =>
      rw [hcols, exceptBind_ok, exceptPure_eq] at h
      have hs := (Except.ok.inj h).symm
      subst hs
      exact ⟨rfl, rfl, rfl⟩

theorem define_sqlite_db_ok_forall
    {dbc_map : List (List Char × List (List Char × List Char))}
    {tables : List (List Char)}
    {refFieldsOf : List Char → List DbfFieldDescr}
    {bad_cols : List (List Char × List Char)}
    {typemap : Char → ColType}
    {schemas : List SqliteTable}
    (h : define_sqlite_db dbc_map tables refFieldsOf bad_cols typemap =
      .ok schemas) :
    schemas.map (fun s => s.name) = tables ∧
    ∀ s ∈ schemas,
      add_sqlite_table s.name dbc_map (refFieldsOf s.name) bad_cols typemap =
        .ok s := by
  induction tables generalizing schemas with
  | nil =>
    unfold define_sqlite_db at h
    rw [List.mapM_nil, exceptPure_eq] at h
    have hs := (Except.ok.inj h).symm
    subst hs
    exact ⟨rfl, by simp⟩
  | cons t ts ih =>
    unfold define_sqlite_db at h
    rw [List.mapM_cons] at h
    cases h1 : add_sqlite_table t dbc_map (refFieldsOf t) bad_cols typemap with
    | error e =>
      rw [h1, exceptBind_error] at h
      exact absurd h (by simp)
    | ok s0 =>
      rw [h1, exceptBind_ok] at h
      have hdd : (ts.mapM fun t2 =>
          add_sqlite_table t2 dbc_map (refFieldsOf t2) bad_cols typemap) =
          define_sqlite_db dbc_map ts refFieldsOf bad_cols typemap := rfl
      rw [hdd] at h
      cases h2 : define_sqlite_db dbc_map ts refFieldsOf bad_cols typemap with
      | error e =>
        rw [h2, exceptBind_error] at h
        exact absurd h (by simp)
      | ok rest =>
        rw [h2, exceptBind_ok, exceptPure_eq] at h
        have hs := (Except.ok.inj h).symm
        subst hs
        obtain ⟨hnames, hall⟩ := ih h2
        have hn0 := (add_sqlite_table_ok_shape h1).1
        constructor
        · simp only [List.map_cons, hnames, hn0]
        · intro s hs
          rcases List.mem_cons.mp hs with rfl | hs2
          · rw [hn0]
            exact h1
          · exact hall s hs2

/-- C8: in a successfully synthesized schema containing the registry
table, exactly one table — `f1_respondent_id` — carries a primary key,
namely the replace-on-conflict key on `respondent_id`; every other table
whose column set contains `respondent_id` carries the foreign key to
`f1_respondent_id.respondent_id`, while tables without that column, and
the registry itself, carry no foreign key. -/
theorem schema_pk_fk_constraints
    (dbc_map : List (List Char × List (List Char × List Char)))
    (tables : List (List Char))
    (refFieldsOf : List Char → List DbfFieldDescr)
    (bad_cols : List (List Char × List Char))
    (typemap : Char → ColType)
    (schemas : List SqliteTable)
    (hok : define_sqlite_db dbc_map tables refFieldsOf bad_cols typemap =
      .ok schemas)
    (hnodup : tables.Nodup)
    (hreg : "f1_respondent_id".toList ∈ tables) :
    (∀ s ∈ schemas,
      (s.pk ≠ none ↔ s.name = "f1_respondent_id".toList) ∧
      (s.name = "f1_respondent_id".toList →
        s.pk = some ⟨["respondent_id".toList], true⟩ ∧ s.fks = []) ∧
      (s.name ≠ "f1_respondent_id".toList → s.pk = none ∧
        (("respondent_id".toList ∈ s.cols.map (fun c => c.1) →
          s.fks = [⟨["respondent_id".toList],
            ["f1_respondent_id.respondent_id".toList]⟩]) ∧
         ("respondent_id".toList ∉ s.cols.map (fun c => c.1) →
          s.fks = []))))
    ∧ (schemas.filter (fun s => s.pk.isSome)).length = 1 := by
  obtain ⟨hnames, hall⟩ := define_sqlite_db_ok_forall hok
  have hshape := fun s hs => add_sqlite_table_ok_shape (hall s hs)
  constructor
  · intro s hs
    obtain ⟨_, hpk, hfks⟩ := hshape s hs
    by_cases hn : s.name = "f1_respondent_id".toList
    · rw [if_pos hn] at hpk
      have hfk0 : s.fks = [] := by
        rw [hfks, if_neg]
        rintro ⟨_, hcon⟩
        exact hcon hn
      refine ⟨⟨fun _ => hn, fun _ => ?_⟩, fun _ => ⟨hpk, hfk0⟩,
        fun hcon => absurd hn hcon⟩
      rw [hpk]
      simp
    · rw [if_neg hn] at hpk
      refine ⟨⟨fun hcon => absurd hpk hcon, fun hcon => absurd hcon hn⟩,
        fun hcon => absurd hcon hn, fun _ => ⟨hpk, ?_, ?_⟩⟩
      · intro hin
        rw [hfks, if_pos ⟨hin, hn⟩]
      · intro hout
        rw [hfks, if_neg]
        rintro ⟨hcon, _⟩
        exact hout hcon
  · have hcong : ∀ s ∈ schemas,
        (s.pk.isSome) = decide (s.name = "f1_respondent_id".toList) := by
      intro s hs
      obtain ⟨_, hpk, _⟩ := hshape s hs
      by_cases hn : s.name = "f1_respondent_id".toList
      · rw [if_pos hn] at hpk
        rw [hpk]
        exact (decide_eq_true hn).symm
      · rw [if_neg hn] at hpk
        rw [hpk]
        exact (decide_eq_false hn).symm
    calc (schemas.filter (fun s => s.pk.isSome)).length
        = schemas.countP (fun s => s.pk.isSome) :=
          (List.countP_eq_length_filter (fun s => s.pk.isSome) schemas).symm
      _ = schemas.countP
            (fun s => decide (s.name = "f1_respondent_id".toList)) := by
          rw [List.countP_eq_length_filter, List.countP_eq_length_filter,
            List.filter_congr hcong]
      _ = (schemas.map (fun s => s.name)).countP
            (fun x => decide (x = "f1_respondent_id".toList)) := by
          rw [List.countP_map]
          rfl
      _ = tables.countP (fun x => decide (x = "f1_respondent_id".toList)) := by
          rw [hnames]
      _ = @List.count (List Char) instBEqOfDecidableEq
            "f1_respondent_id".toList tables := rfl
      _ = 1 := List.count_eq_one_of_mem hnodup hreg

/-- C8, witness: a registry plus fuel-table schema — only the registry
gets the replace-on-conflict primary key, and only the fuel table (whose
columns contain `respondent_id`) gets the foreign key. -/
theorem schema_pk_fk_constraints_witness :
    (∀ s ∈ [(⟨"f1_respondent_id".toList,
              [("respondent_id".toList, ColType.mapped 'N')],
              some ⟨["respondent_id".toList], true⟩, []⟩ : SqliteTable),
            ⟨"f1_fuel".toList,
              [("respondent_id".toList, ColType.mapped 'N'),
               ("fuel".toList, ColType.sqlString (some 10))],
              none,
              [⟨["respondent_id".toList],
                ["f1_respondent_id.respondent_id".toList]⟩]⟩],
      (s.pk ≠ none ↔ s.name = "f1_respondent_id".toList) ∧
      (s.name = "f1_respondent_id".toList →
        s.pk = some ⟨["respondent_id".toList], true⟩ ∧ s.fks = []) ∧
      (s.name ≠ "f1_respondent_id".toList → s.pk = none ∧
        (("respondent_id".toList ∈ s.cols.map (fun c => c.1) →
          s.fks = [⟨["respondent_id".toList],
            ["f1_respondent_id.respondent_id".toList]⟩]) ∧
         ("respondent_id".toList ∉ s.cols.map (fun c => c.1) →
          s.fks = []))))
    ∧ ([(⟨"f1_respondent_id".toList,
          [("respondent_id".toList, ColType.mapped 'N')],
          some ⟨["respondent_id".toList], true⟩, []⟩ : SqliteTable),
        ⟨"f1_fuel".toList,
          [("respondent_id".toList, ColType.mapped 'N'),
           ("fuel".toList, ColType.sqlString (some 10))],
          none,
          [⟨["respondent_id".toList],
            ["f1_respondent_id.respondent_id".toList]⟩]⟩].filter
        (fun s => s.pk.isSome)).length = 1 :=
  schema_pk_fk_constraints
    [("f1_respondent_id".toList,
      [("RESPONDENT".toList, "respondent_id".toList)]),
     ("f1_fuel".toList,
      [("RESPONDENT".toList, "respondent_id".toList),
       ("FUEL".toList, "fuel".toList)])]
    ["f1_respondent_id".toList, "f1_fuel".toList]
    (fun t => if t = "f1_fuel".toList then
        [⟨"RESPONDENT".toList, 'N', 8⟩, ⟨"FUEL".toList, 'C', 10⟩]
      else [⟨"RESPONDENT".toList, 'N', 8⟩])
    []
    (fun c => if c = 'C' then ColType.sqlString none else ColType.mapped c)
    [⟨"f1_respondent_id".toList,
      [("respondent_id".toList, ColType.mapped 'N')],
      some ⟨["respondent_id".toList], true⟩, []⟩,
     ⟨"f1_fuel".toList,
      [("respondent_id".toList, ColType.mapped 'N'),
       ("fuel".toList, ColType.sqlString (some 10))],
      none,
      [⟨["respondent_id".toList],
        ["f1_respondent_id.respondent_id".toList]⟩]⟩]
    (by decide) (by decide) (by decide)
